import Mathlib

/-
Verification of the errorset library core (error-value construction and
identification engine). The definitions below are a shallow embedding of
the TypeScript sources:
  * src/config.ts            — Config, defaults, configure/merge
  * types.ts (part_006)      — ERR brand, isErr, createKindFunction,
                               createSetGuard(WithKinds), recover, inspect,
                               merge, captureSync, captureAsync, errorSet
JavaScript runtime values are modelled by the inductive `JsVal`; an object
carrying the private ERR symbol is modelled by the `errObj` constructor,
whose first field is the boolean value stored under that symbol.
-/

namespace Errorset

/-- Output format for error messages (config.ts `Format`). -/
inductive Format : Type where
  | pretty : Format
  | json : Format
  | minimal : Format
deriving DecidableEq, Repr

/-- Configuration record (config.ts `Config`). -/
structure Config : Type where
  format : Format
  includeStack : Bool
  includeTimestamp : Bool
  colors : Bool
  stackDepth : Int
deriving DecidableEq, Repr

/-- Default configuration (config.ts `defaultConfig`): stack and timestamp
off, depth 10, pretty format, colors on. -/
def defaultConfig : Config :=
  { format := .pretty
    includeStack := false
    includeTimestamp := false
    colors := true
    stackDepth := 10 }

/-- A partial configuration (`Partial<Config>`): every field optional. -/
structure PartialConfig : Type where
  format : Option Format := none
  includeStack : Option Bool := none
  includeTimestamp : Option Bool := none
  colors : Option Bool := none
  stackDepth : Option Int := none
deriving DecidableEq, Repr

/-- JavaScript object-spread merge `{ ...cur, ...p }` of a partial config
into a full config (config.ts `configure`, and the merge inside
`captureStack` in types.ts). -/
def mergeConfig (cur : Config) (p : PartialConfig) : Config :=
  { format := p.format.getD cur.format
    includeStack := p.includeStack.getD cur.includeStack
    includeTimestamp := p.includeTimestamp.getD cur.includeTimestamp
    colors := p.colors.getD cur.colors
    stackDepth := p.stackDepth.getD cur.stackDepth }

/-- Shallow model of JavaScript runtime values, as far as the engine
inspects them.  `errObj brand kind message data cause timestamp stack`
models an object that owns the private ERR symbol property with boolean
value `brand` (the engine always stores `true` there) together with the
fields of the `Err` record; `plainObj` models any object without the ERR
property (string-keyed lookalikes included); `funv` models a bare function
value (`typeof` is "function", no ERR property).  `callableErr kind
message` models a zero-placeholder callable error — an engine-created
function (`typeof` is "function") carrying the ERR symbol with value
`true`, its `kind`, its `message`, and an empty `data` object; this
constructor is modelled from the spec's zero-placeholder shortcut
(section 4.2), whose implementing `types.ts` revision (task-039) is absent
from the source dump, as attested by task-039's implementation notes and
tests/object-api.test.ts. -/
inductive JsVal : Type where
  | undef : JsVal
  | nullv : JsVal
  | boolv : Bool → JsVal
  | numv : Int → JsVal
  | strv : String → JsVal
  | plainObj : List (String × JsVal) → JsVal
  | errObj : Bool → String → String → List (String × JsVal) →
      Option JsVal → Option Int → Option String → JsVal
  | funv : JsVal
  | callableErr : String → String → JsVal

/-- Property read `o[key]` on a JS object: the first binding for `key`,
`undefined` when absent. -/
def objGet : List (String × JsVal) → String → JsVal
  | [], _ => .undef
  | (k, v) :: rest, key => if k == key then v else objGet rest key

/-- Property write `o[key] = v` on a JS object: overwrite the existing
binding, else append (JS objects keep first-insertion order). -/
def objSet : List (String × JsVal) → String → JsVal → List (String × JsVal)
  | [], key, v => [(key, v)]
  | (k, w) :: rest, key, v =>
      if k == key then (k, v) :: rest else (k, w) :: objSet rest key v

/-- The keys of a JS object, in property order. -/
def objKeys (o : List (String × JsVal)) : List String :=
  o.map Prod.fst

/-- Modelled from the spec: `isErr` after the zero-placeholder update
(task-039, whose `types.ts` revision is absent from the source dump) —
value is a non-null object or function carrying the ERR symbol with value
`true`.  The object case follows part_006 lines 75–84; the callable-error
case follows task-039's note "Updated isErr() to handle functions with ERR
symbol" and tests/object-api.test.ts (isErr true on a `typeof` "function"
value carrying ERR).  Bare functions and plain objects without the symbol
are rejected. -/
def isErr : JsVal → Bool
  | .errObj brand _ _ _ _ _ _ => brand
  | .callableErr _ _ => true
  | _ => false

/-- Guard mode of a kind function (createKindFunction, types.ts): ERR
symbol `true` and `kind` strictly equal to this function's kind.  The
object case follows part_006 lines 337–351; the callable-error case is
modelled from the spec (task-039's "Updated set-level and kind-level
guards to handle callable errors" and tests/object-api.test.ts, which
assert the own kind's guard true and every other kind's guard false on a
callable error). -/
def kindGuard (kind : String) : JsVal → Bool
  | .errObj brand k _ _ _ _ _ => brand && (k == kind)
  | .callableErr k _ => k == kind
  | _ => false

/-- Set-level guard (createSetGuard, types.ts): ERR symbol `true` and a
string `kind` contained in the set's kind list (`kinds.includes(kind)`).
The object case follows part_006 lines 406–442; the callable-error case is
modelled from the spec (task-039's updated guards and
tests/object-api.test.ts, which assert the set guard and instanceof true
on a callable error). -/
def setGuard (kinds : List String) : JsVal → Bool
  | .errObj brand k _ _ _ _ _ => brand && kinds.contains k
  | .callableErr k _ => kinds.contains k
  | _ => false

/-- JavaScript `String(v)` coercion for the modelled values.  The engine's
error objects have no own `toString`, so they stringify like plain objects.
(The string form of a bare function is its source text; no claim evaluates
it, a fixed placeholder is used.) -/
def jsToString : JsVal → String
  | .undef => "undefined"
  | .nullv => "null"
  | .boolv true => "true"
  | .boolv false => "false"
  | .numv n => toString n
  | .strv s => s
  | .plainObj _ => "[object Object]"
  | .errObj _ _ _ _ _ _ _ => "[object Object]"
  | .funv => "function"
  | .callableErr _ _ => "function"

/-- Coercion `String(value ?? "")` as used when interpolating a template hole
(createKindFunction): `undefined` and `null` collapse to the empty
string. -/
def interpValue : JsVal → String
  | .undef => ""
  | .nullv => ""
  | v => jsToString v

/-- The interpolation loop of the creator (createKindFunction):
for `i` in `[0, keys.length)` append `String(entity[keys[i]] ?? "")` and
then `strings[i+1] ?? ""`.  `i` is the index of the current key. -/
def msgLoop (strings : List String) (entity : List (String × JsVal)) :
    List String → Nat → String
  | [], _ => ""
  | key :: rest, i =>
      interpValue (objGet entity key) ++ (strings.getD (i + 1) "" ++
        msgLoop strings entity rest (i + 1))

/-- Message construction of the creator: `strings[0] ?? ""` followed by the
interpolation loop. -/
def buildMessage (strings keys : List String)
    (entity : List (String × JsVal)) : String :=
  strings.getD 0 "" ++ msgLoop strings entity keys 0

/-- The data-extraction loop of the creator: `for key of keys`
`data[key] = entity[key]`, starting from the accumulated object `data`. -/
def extractLoop (entity : List (String × JsVal)) :
    List (String × JsVal) → List String → List (String × JsVal)
  | data, [] => data
  | data, key :: rest =>
      extractLoop entity (objSet data key (objGet entity key)) rest

/-- The `data` of a constructed error: only the fields of the entity named by
the placeholder keys, extracted in placeholder order into a fresh object
(createKindFunction). -/
def extractData (keys : List String) (entity : List (String × JsVal)) :
    List (String × JsVal) :=
  extractLoop entity [] keys

/-- The configuration effective inside `captureStack`:
`instanceConfig ? { ...globalConfig, ...instanceConfig } : globalConfig`. -/
def effectiveConfig (globalCfg : Config) (instanceCfg : Option PartialConfig) :
    Config :=
  match instanceCfg with
  | none => globalCfg
  | some p => mergeConfig globalCfg p

/-- The creator body of `createKindFunction` (types.ts): extracts `data`,
builds `message`, stamps the ERR brand, `kind`, optional `cause`, and, via
`captureStack`, a stack string when `includeStack` is enabled and the
platform supports capture (`v8Stack` is the platform's captured stack,
`none` on engines without `Error.captureStackTrace`).  The source writes no
timestamp field, so the timestamp component is always absent. -/
def createError (kind : String) (strings keys : List String)
    (entity : List (String × JsVal)) (cause : Option JsVal)
    (globalCfg : Config) (instanceCfg : Option PartialConfig)
    (v8Stack : Option String) : JsVal :=
  let data := extractData keys entity
  let message := buildMessage strings keys entity
  let cfg := effectiveConfig globalCfg instanceCfg
  let stack := if cfg.includeStack then v8Stack else none
  .errObj true kind message data cause none stack

/-- The timestamp field of an error value (`none` on non-errors; a
callable error carries none). -/
def errTimestamp : JsVal → Option Int
  | .errObj _ _ _ _ _ t _ => t
  | _ => none

/-- The cause field of an error value (`none` on non-errors; the callable
error itself carries no cause — invoking it attaches one). -/
def errCause : JsVal → Option JsVal
  | .errObj _ _ _ _ c _ _ => c
  | _ => none

/-- The kind field of an error value (`none` on non-errors). -/
def errKind : JsVal → Option String
  | .errObj _ k _ _ _ _ _ => some k
  | .callableErr k _ => some k
  | _ => none

/-- The message field of an error value (`none` on non-errors). -/
def errMessage : JsVal → Option String
  | .errObj _ _ m _ _ _ _ => some m
  | .callableErr _ m => some m
  | _ => none

/-- The data field of an error value (`none` on non-errors; a callable
error carries the empty data object, as asserted by
tests/object-api.test.ts). -/
def errData : JsVal → Option (List (String × JsVal))
  | .errObj _ _ _ d _ _ _ => some d
  | .callableErr _ _ => some []
  | _ => none

/-- The runtime duplicate scan of `errorSet` (types.ts): walk the kind list
with a seen-set, stopping at the first kind already seen.  The seen-set is
modelled by the list of previously visited kinds. -/
def findDuplicate : List String → List String → Option String
  | _, [] => none
  | seen, k :: rest =>
      if seen.contains k then some k else findDuplicate (k :: seen) rest

/-- The message of the declaration-time rejection:
`Duplicate kind "<kind>" in error set "<name>"`. -/
def dupMsg (kind name : String) : String :=
  "Duplicate kind \"" ++ kind ++ "\" in error set \"" ++ name ++ "\""

/-- Declaration-time runtime validation of `errorSet` (types.ts): throws on
the first duplicate kind, citing the duplicate and the set's name;
otherwise the declaration proceeds. -/
def errorSetValidate (name : String) (kinds : List String) :
    Except String Unit :=
  match findDuplicate [] kinds with
  | some k => .error (dupMsg k name)
  | none => .ok ()

/-- The compile-time tuple walk `HasDuplicates` (types.ts): does the head
appear in the tail, else recurse on the tail. -/
def hasDuplicates : List String → Bool
  | [] => false
  | h :: t => if t.contains h then true else hasDuplicates t

/-- The fatal message of `recover` when neither a specific handler nor the
catch-all is present. -/
def noHandlerMsg (kind : String) : String :=
  "No handler found for error kind: " ++ kind ++
    ". Provide a handler for \"" ++ kind ++
    "\" or a catch-all \"_\" handler."

/-- Embedding of `recover` (types.ts): return a non-matching value unchanged; on a
matching error run the handler keyed by the exact kind, else the catch-all
keyed `"_"`, else throw naming the kind.  The handlers object is modelled
as a lookup function, so `handlers "_"` is the catch-all entry.  The
source dispatch is uniform property access on `value.kind` after the guard
accepts, so the callable-error case mirrors the object case verbatim. -/
def recover {R : Type} (value : JsVal) (kinds : List String)
    (handlers : String → Option (JsVal → R)) : Except String (JsVal ⊕ R) :=
  match value with
  | .errObj brand k m d c t s =>
      if setGuard kinds (.errObj brand k m d c t s) then
        match handlers k with
        | some h => .ok (.inr (h (.errObj brand k m d c t s)))
        | none =>
            match handlers "_" with
            | some h => .ok (.inr (h (.errObj brand k m d c t s)))
            | none => .error (noHandlerMsg k)
      else .ok (.inl value)
  | .callableErr k m =>
      if setGuard kinds (.callableErr k m) then
        match handlers k with
        | some h => .ok (.inr (h (.callableErr k m)))
        | none =>
            match handlers "_" with
            | some h => .ok (.inr (h (.callableErr k m)))
            | none => .error (noHandlerMsg k)
      else .ok (.inl value)
  | v => .ok (.inl v)

/-- Embedding of `inspect` (types.ts): do nothing on a non-matching value; on a matching
error call the handler keyed by the exact kind when supplied, else do
nothing; return nothing either way.  The result records, as an event trace,
the kinds whose handler was invoked; the `Except` layer mirrors that the
source body contains no throw.  As in `recover`, the source dispatch is
uniform property access on `value.kind`, so the callable-error case
mirrors the object case verbatim. -/
def inspectRun (value : JsVal) (kinds : List String)
    (handlers : String → Option (JsVal → Unit)) :
    Except String (List String) :=
  match value with
  | .errObj brand k m d c t s =>
      if setGuard kinds (.errObj brand k m d c t s) then
        match handlers k with
        | some _ => .ok [k]
        | none => .ok []
      else .ok []
  | .callableErr k m =>
      if setGuard kinds (.callableErr k m) then
        match handlers k with
        | some _ => .ok [k]
        | none => .ok []
      else .ok []
  | _ => .ok []

/-- A set guard together with its read-only `kinds` array
(createSetGuardWithKinds, types.ts).  Its callable and instance-check entry
points are both `setGuard kinds` (`sgTest`). -/
structure SetGuardWithKinds : Type where
  kinds : List String
deriving DecidableEq, Repr

/-- The callable behaviour of a guard built by `createSetGuardWithKinds`
(and of its `Symbol.hasInstance` hook, which delegates to the same
closure). -/
def sgTest (g : SetGuardWithKinds) (v : JsVal) : Bool :=
  setGuard g.kinds v

/-- Embedding of `merge` (types.ts): a fresh guard over the spread-concatenation
`[...guard1.kinds, ...guard2.kinds]`; the inputs are not modified. -/
def merge (g1 g2 : SetGuardWithKinds) : SetGuardWithKinds :=
  ⟨g1.kinds ++ g2.kinds⟩

/-- A JS `Error` instance, reduced to its message (all that the engine and
the claims consume). -/
structure JsError : Type where
  message : String
deriving DecidableEq, Repr

/-- A value thrown by (or a rejection of) the wrapped function: either an
`Error` instance or any other JS value. -/
inductive Thrown : Type where
  | exn : JsError → Thrown
  | raw : JsVal → Thrown

/-- The normalization at the capture boundary:
`error_ instanceof Error ? error_ : new Error(String(error_))`. -/
def normalizeThrown : Thrown → JsError
  | .exn e => e
  | .raw v => ⟨jsToString v⟩

/-- Embedding of `captureSync` (types.ts): the outcome of `fn` is modelled as
`Except Thrown A` (normal return or thrown value); a normal return passes
through, a thrown value is normalized and mapped. -/
def captureSync {A : Type} (fn : Except Thrown A)
    (mapper : JsError → JsVal) : A ⊕ JsVal :=
  match fn with
  | .ok a => .inl a
  | .error t => .inr (mapper (normalizeThrown t))

/-- Embedding of `captureAsync` (types.ts): the awaited outcome of `fn` (normal
resolution, synchronous throw, or rejection) is the same `Except Thrown A`;
the body is identical to `captureSync`. -/
def captureAsync {A : Type} (fn : Except Thrown A)
    (mapper : JsError → JsVal) : A ⊕ JsVal :=
  match fn with
  | .ok a => .inl a
  | .error t => .inr (mapper (normalizeThrown t))

/-- Modelled from the spec: what a kind function returns when applied as a
tagged template (constructor mode), after the zero-placeholder shortcut of
section 4.2 (implemented by task-039, whose `types.ts` revision is absent
from the source dump; behaviour per task-039's implementation notes and
tests/object-api.test.ts).  With at least one placeholder key the creator
closure is returned; with no placeholder keys the result is a callable
error carrying its kind and message. -/
inductive TaggedCallResult : Type where
  | creatorFn : (List (String × JsVal) → Option JsVal → JsVal) →
      TaggedCallResult
  | callableValue : String → String → TaggedCallResult

/-- Modelled from the spec: constructor mode of a kind function after the
zero-placeholder shortcut.  A template referencing no placeholder keys
yields the callable error directly (its message is the sole segment — the
interpolation loop is vacuous for zero keys); a template with placeholder
keys yields the creator closure built over the segments and keys, exactly
as in part_006 lines 294–334. -/
def kindFnTemplate (kind : String) (strings keys : List String)
    (globalCfg : Config) (instanceCfg : Option PartialConfig)
    (v8Stack : Option String) : TaggedCallResult :=
  match keys with
  | [] => .callableValue kind (strings.getD 0 "")
  | _ :: _ => .creatorFn (fun entity cause =>
      createError kind strings keys entity cause globalCfg instanceCfg
        v8Stack)

/-- Modelled from the spec: the JS runtime shape of a constructor-mode
result.  A creator closure is a bare function with no ERR property; a
zero-placeholder result is the callable error itself — a function carrying
the ERR symbol set to true, its kind, its message and empty data. -/
def taggedResultShape : TaggedCallResult → JsVal
  | .creatorFn _ => .funv
  | .callableValue k m => .callableErr k m

/-- Modelled from the spec: invoking a zero-placeholder callable error with
an optional cause produces a second Error Value sharing its kind and
message, with the supplied cause attached and data still empty (asserted
by tests/object-api.test.ts: kind and message unchanged, `cause.kind`
preserved, inspect output shows empty data). -/
def callableInvoke (kind message : String) (cause : Option JsVal) : JsVal :=
  .errObj true kind message [] cause none none

/-- Modelled from the spec: the call behaviour of a constructor-mode
result under the claim's call shape (a single optional `cause` argument).
Only the zero-placeholder callable error is callable this way; a creator
closure requires an entity argument, so it has no result under this
shape. -/
def taggedInvoke : TaggedCallResult → Option JsVal → Option JsVal
  | .callableValue k m, cause => some (callableInvoke k m cause)
  | .creatorFn _, _ => none

/-- Modelled from the spec: the message law of section 4.2(b) — segment₀,
then alternately `String(value(keyᵢ) ?? "")` and segmentᵢ₊₁, through the
last segment.  Used only to compare against `buildMessage`, which is
translated from the source. -/
def messageSpec (entity : List (String × JsVal)) :
    List String → List String → String
  | [], _ => ""
  | s :: _, [] => s
  | s :: srest, k :: krest =>
      s ++ (interpValue (objGet entity k) ++ messageSpec entity srest krest)

end Errorset

/-! Helper lemmas about the object-map operations, the extraction and
interpolation loops, and the duplicate scans.  These are shared
infrastructure for the claim theorems below. -/

namespace Errorset

/-- Appending the empty string on the right is the identity. -/
theorem string_append_empty (s : String) : s ++ "" = s := by
  simp

/-- Reading back the key just written. -/
theorem objGet_objSet_self (o : List (String × JsVal)) (k : String) (v : JsVal) :
    objGet (objSet o k v) k = v := by
  induction o with
  | nil => simp [objSet, objGet]
  | cons p rest ih =>
      obtain ⟨k0, w⟩ := p
      by_cases h : k0 = k
      · subst h; simp [objSet, objGet]
      · simp [objSet, objGet, h, ih, beq_iff_eq]

/-- Writing one key leaves every other key's binding unchanged. -/
theorem objGet_objSet_ne (o : List (String × JsVal)) (k k' : String) (v : JsVal)
    (h : k' ≠ k) : objGet (objSet o k v) k' = objGet o k' := by
  induction o with
  | nil => simp [objSet, objGet, beq_iff_eq, Ne.symm h]
  | cons p rest ih =>
      obtain ⟨k0, w⟩ := p
      by_cases h0 : k0 = k
      · subst h0
        simp [objSet, objGet, beq_iff_eq, Ne.symm h]
      · by_cases h1 : k0 = k'
        · subst h1; simp [objSet, objGet, beq_iff_eq, h0]
        · simp [objSet, objGet, beq_iff_eq, h0, h1, ih]

/-- A write either keeps the key list (key present) or appends the new key. -/
theorem objKeys_objSet (o : List (String × JsVal)) (k : String) (v : JsVal) :
    objKeys (objSet o k v) =
      if k ∈ objKeys o then objKeys o else objKeys o ++ [k] := by
  induction o with
  | nil => simp [objSet, objKeys]
  | cons p rest ih =>
      obtain ⟨k0, w⟩ := p
      simp only [objKeys, List.map_cons] at ih ⊢
      by_cases h : k0 = k
      · subst h; simp [objSet]
      · simp only [objSet, beq_iff_eq, if_neg h, List.map_cons]
        rw [ih]
        by_cases hm : k ∈ List.map Prod.fst rest
        · rw [if_pos hm, if_pos (by simp [hm])]
        · rw [if_neg hm, if_neg (by simp [hm, Ne.symm h]), List.cons_append]

/-- Value read back from the extraction loop: referenced keys carry the
entity's value, unreferenced keys keep the accumulator's binding. -/
theorem objGet_extractLoop (entity : List (String × JsVal)) (keys : List String)
    (data : List (String × JsVal)) (k : String) :
    objGet (extractLoop entity data keys) k =
      if k ∈ keys then objGet entity k else objGet data k := by
  induction keys generalizing data with
  | nil => simp [extractLoop]
  | cons key rest ih =>
      simp only [extractLoop]
      rw [ih]
      by_cases hm : k ∈ rest
      · simp [hm]
      · by_cases hk : k = key
        · subst hk
          simp [hm, objGet_objSet_self]
        · simp [hm, hk, objGet_objSet_ne _ _ _ _ hk]

/-- Keys present after the extraction loop: exactly the referenced keys plus
whatever the accumulator already had. -/
theorem mem_objKeys_extractLoop (entity : List (String × JsVal))
    (keys : List String) (data : List (String × JsVal)) (k : String) :
    k ∈ objKeys (extractLoop entity data keys) ↔
      k ∈ keys ∨ k ∈ objKeys data := by
  induction keys generalizing data with
  | nil => simp [extractLoop]
  | cons key rest ih =>
      simp only [extractLoop]
      rw [ih, objKeys_objSet]
      by_cases hm : key ∈ objKeys data
      · rw [if_pos hm]
        simp only [List.mem_cons]
        constructor
        · rintro (h | h)
          · exact Or.inl (Or.inr h)
          · exact Or.inr h
        · rintro ((h | h) | h)
          · exact Or.inr (h ▸ hm)
          · exact Or.inl h
          · exact Or.inr h
      · rw [if_neg hm]
        simp only [List.mem_cons, List.mem_append, List.mem_singleton]
        tauto

/-- The extraction loop never produces a duplicate key. -/
theorem nodup_objKeys_extractLoop (entity : List (String × JsVal))
    (keys : List String) (data : List (String × JsVal))
    (hd : (objKeys data).Nodup) :
    (objKeys (extractLoop entity data keys)).Nodup := by
  induction keys generalizing data with
  | nil => simpa [extractLoop] using hd
  | cons key rest ih =>
      simp only [extractLoop]
      apply ih
      rw [objKeys_objSet]
      by_cases hm : key ∈ objKeys data
      · simpa [hm] using hd
      · rw [if_neg hm]
        simp [List.nodup_append, hd, hm]

/-- Extracted data has one entry per distinct referenced key. -/
theorem length_extractData (keys : List String)
    (entity : List (String × JsVal)) :
    (extractData keys entity).length = keys.dedup.length := by
  have hmem : ∀ k, k ∈ objKeys (extractData keys entity) ↔ k ∈ keys := by
    intro k
    simpa [objKeys] using mem_objKeys_extractLoop entity keys [] k
  have hnd : (objKeys (extractData keys entity)).Nodup :=
    nodup_objKeys_extractLoop entity keys [] (by simp [objKeys])
  have hfin : (objKeys (extractData keys entity)).toFinset = keys.toFinset := by
    ext a
    simp [List.mem_toFinset, hmem]
  have h1 : (objKeys (extractData keys entity)).length =
      (objKeys (extractData keys entity)).toFinset.card :=
    (List.toFinset_card_of_nodup hnd).symm
  have h2 : keys.dedup.length = keys.dedup.toFinset.card :=
    (List.toFinset_card_of_nodup (List.nodup_dedup keys)).symm
  have h3 : (extractData keys entity).length =
      (objKeys (extractData keys entity)).length := by
    simp [objKeys]
  have h4 : keys.dedup.toFinset = keys.toFinset := by
    ext a
    simp [List.mem_toFinset, List.mem_dedup]
  rw [h3, h1, hfin, h2, h4]

/-- Shifting the segment index by one is the same as dropping the head
segment: the interpolation loop only reads `strings` from index `i + 1`
upward. -/
theorem msgLoop_shift (s0 : String) (strings : List String)
    (entity : List (String × JsVal)) (keys : List String) (i : Nat) :
    msgLoop (s0 :: strings) entity keys (i + 1) =
      msgLoop strings entity keys i := by
  induction keys generalizing i with
  | nil => simp [msgLoop]
  | cons key rest ih =>
      simp only [msgLoop, List.getD_cons_succ]
      rw [ih]

/-- The indexed interpolation loop of the source computes exactly the
alternating concatenation stated by the spec, whenever the template shape
invariant (one more segment than keys) holds. -/
theorem buildMessage_eq_messageSpec (strings keys : List String)
    (entity : List (String × JsVal))
    (hl : strings.length = keys.length + 1) :
    buildMessage strings keys entity = messageSpec entity strings keys := by
  induction keys generalizing strings with
  | nil =>
      match strings, hl with
      | [s], _ => simp [buildMessage, msgLoop, messageSpec]
  | cons key rest ih =>
      match strings, hl with
      | s0 :: srest, hl =>
        have hl' : srest.length = rest.length + 1 := by
          simpa using hl
        simp only [buildMessage, msgLoop, messageSpec, List.getD_cons_zero,
          List.getD_cons_succ, msgLoop_shift]
        rw [← ih srest hl']
        simp [buildMessage]

/-- The seen-set scan finds no duplicate exactly when the list has no
repeats and avoids everything already seen. -/
theorem findDuplicate_eq_none_iff (l seen : List String) :
    findDuplicate seen l = none ↔ l.Nodup ∧ ∀ x ∈ l, x ∉ seen := by
  induction l generalizing seen with
  | nil => simp [findDuplicate]
  | cons k rest ih =>
      simp only [findDuplicate]
      by_cases hk : seen.contains k
      · simp only [if_pos hk]
        have : k ∈ seen := by simpa using hk
        simp [this]
      · simp only [if_neg hk]
        have hks : k ∉ seen := by simpa using hk
        rw [ih]
        constructor
        · rintro ⟨hnd, hall⟩
          refine ⟨List.nodup_cons.mpr ⟨fun hmem => ?_, hnd⟩, ?_⟩
          · exact (hall k hmem) (List.mem_cons_self k seen)
          · intro x hx
            rcases List.mem_cons.mp hx with h | h
            · subst h; exact hks
            · exact fun hxs => (hall x h) (List.mem_cons_of_mem k hxs)
        · rintro ⟨hnd, hall⟩
          rcases List.nodup_cons.mp hnd with ⟨hkr, hndr⟩
          refine ⟨hndr, ?_⟩
          intro x hx hxk
          rcases List.mem_cons.mp hxk with h | h
          · subst h; exact hkr hx
          · exact (hall x (List.mem_cons_of_mem k hx)) h

/-- A duplicate reported by the scan is an element of the list. -/
theorem findDuplicate_some_mem (l seen : List String) (k : String)
    (h : findDuplicate seen l = some k) : k ∈ l := by
  induction l generalizing seen with
  | nil => simp [findDuplicate] at h
  | cons k0 rest ih =>
      simp only [findDuplicate] at h
      by_cases hk : seen.contains k0
      · rw [if_pos hk] at h
        cases h
        exact List.mem_cons_self _ _
      · rw [if_neg hk] at h
        exact List.mem_cons_of_mem _ (ih _ h)

/-- The compile-time tuple walk flags exactly the lists with a repeat. -/
theorem hasDuplicates_iff_not_nodup (l : List String) :
    hasDuplicates l = true ↔ ¬ l.Nodup := by
  induction l with
  | nil => simp [hasDuplicates]
  | cons k rest ih =>
      simp only [hasDuplicates]
      by_cases hk : rest.contains k
      · have : k ∈ rest := by simpa using hk
        simp [hk, List.nodup_cons, this]
      · have : k ∉ rest := by simpa using hk
        simp [hk, List.nodup_cons, this, ih]

end Errorset

/-! Claim theorems.  Each theorem names the claim it settles and is stated
against the embedded source definitions above. -/

namespace Errorset

/-- C1: for every declared error set (a kind list accepted by the
declaration-time validation) and every error value constructed via one of
its kind functions, the set-level guard returns true for that value, the
constructing kind's own guard-mode returns true for it, and the guard-mode
of every other kind declared in the set returns false for it. -/
theorem c1_constructed_value_guards (name : String) (kinds : List String)
    (_hv : errorSetValidate name kinds = .ok ()) (k : String) (hk : k ∈ kinds)
    (strings keys : List String) (entity : List (String × JsVal))
    (cause : Option JsVal) (g : Config) (i : Option PartialConfig)
    (v8 : Option String) :
    setGuard kinds (createError k strings keys entity cause g i v8) = true ∧
    kindGuard k (createError k strings keys entity cause g i v8) = true ∧
    ∀ k', k' ∈ kinds → k' ≠ k →
      kindGuard k' (createError k strings keys entity cause g i v8) = false := by
  refine ⟨?_, ?_, ?_⟩
  · simp [createError, setGuard, hk]
  · simp [createError, kindGuard]
  · intro k' h1 h2
    simp [createError, kindGuard, beq_iff_eq, Ne.symm h2]

/-- Witness for C1 at the set UserError = ["not_found", "suspended"], the
kind "not_found", and the entity with id "123". -/
theorem c1_witness :
    setGuard ["not_found", "suspended"]
      (createError "not_found" ["User ", " not found"] ["id"]
        [("id", JsVal.strv "123")] none defaultConfig none none) = true ∧
    kindGuard "not_found"
      (createError "not_found" ["User ", " not found"] ["id"]
        [("id", JsVal.strv "123")] none defaultConfig none none) = true ∧
    kindGuard "suspended"
      (createError "not_found" ["User ", " not found"] ["id"]
        [("id", JsVal.strv "123")] none defaultConfig none none) = false := by
  have h := c1_constructed_value_guards "UserError" ["not_found", "suspended"]
    rfl "not_found" (by decide) ["User ", " not found"] ["id"]
    [("id", JsVal.strv "123")] none defaultConfig none none
  exact ⟨h.1, h.2.1, h.2.2 "suspended" (by decide) (by decide)⟩

/-- C2: the constructed error's message is the message built by the source
loop; that loop equals the spec's alternating concatenation of segments and
stringified entity values (missing and undefined values collapsing to the
empty string) whenever the template has one more segment than keys; and the
round-trip example segments ["User ", " not found"], key id, entity
id = "123" yields "User 123 not found". -/
theorem c2_message_concatenation :
    (∀ kind strings keys entity cause g i v8,
        errMessage (createError kind strings keys entity cause g i v8) =
          some (buildMessage strings keys entity)) ∧
    (∀ strings keys entity, strings.length = keys.length + 1 →
        buildMessage strings keys entity = messageSpec entity strings keys) ∧
    buildMessage ["User ", " not found"] ["id"] [("id", JsVal.strv "123")] =
      "User 123 not found" :=
  ⟨fun _ _ _ _ _ _ _ _ => rfl,
   fun s k e h => buildMessage_eq_messageSpec s k e h, rfl⟩

/-- Witness for C2 at the round-trip example. -/
theorem c2_witness :
    ((["User ", " not found"] : List String).length =
      (["id"] : List String).length + 1) ∧
    buildMessage ["User ", " not found"] ["id"] [("id", JsVal.strv "123")] =
      messageSpec [("id", JsVal.strv "123")] ["User ", " not found"] ["id"] ∧
    buildMessage ["User ", " not found"] ["id"] [("id", JsVal.strv "123")] =
      "User 123 not found" :=
  ⟨by decide, c2_message_concatenation.2.1 _ _ _ (by decide),
    c2_message_concatenation.2.2⟩

/-- C3: the constructed error's data is the extracted object; the extracted
object's keys are exactly the referenced placeholder keys (membership both
ways, so unreferenced entity fields never appear), each mapped to the
entity's value for that key, without duplicates, and its entry count is the
number of distinct referenced keys — independent of the entity's other
fields. -/
theorem c3_data_exact_keys (keys : List String)
    (entity : List (String × JsVal)) :
    (∀ kind strings cause g i v8,
        errData (createError kind strings keys entity cause g i v8) =
          some (extractData keys entity)) ∧
    (∀ k, k ∈ objKeys (extractData keys entity) ↔ k ∈ keys) ∧
    (∀ k, k ∈ keys → objGet (extractData keys entity) k = objGet entity k) ∧
    (objKeys (extractData keys entity)).Nodup ∧
    (extractData keys entity).length = keys.dedup.length := by
  refine ⟨fun _ _ _ _ _ _ => rfl, ?_, ?_, ?_, length_extractData keys entity⟩
  · intro k
    simpa [extractData, objKeys] using mem_objKeys_extractLoop entity keys [] k
  · intro k hk
    simpa [extractData, hk] using objGet_extractLoop entity keys [] k
  · exact nodup_objKeys_extractLoop entity keys [] (by simp [objKeys])

/-- Witness for C3 at keys ["id"] and an entity with an extra field. -/
theorem c3_witness :
    ("id" ∈ objKeys (extractData ["id"]
        [("id", JsVal.strv "123"), ("name", JsVal.strv "Bob")]) ↔
      "id" ∈ (["id"] : List String)) ∧
    objGet (extractData ["id"]
        [("id", JsVal.strv "123"), ("name", JsVal.strv "Bob")]) "id" =
      objGet [("id", JsVal.strv "123"), ("name", JsVal.strv "Bob")] "id" ∧
    (extractData ["id"]
        [("id", JsVal.strv "123"), ("name", JsVal.strv "Bob")]).length =
      (["id"] : List String).dedup.length :=
  ⟨(c3_data_exact_keys ["id"]
      [("id", JsVal.strv "123"), ("name", JsVal.strv "Bob")]).2.1 "id",
   (c3_data_exact_keys ["id"]
      [("id", JsVal.strv "123"), ("name", JsVal.strv "Bob")]).2.2.1 "id"
      (by decide),
   (c3_data_exact_keys ["id"]
      [("id", JsVal.strv "123"), ("name", JsVal.strv "Bob")]).2.2.2.2⟩

/-- C4: declaring an error set throws at declaration time, with a message
citing the duplicate kind and the set's name, exactly when the kind list
contains a repeated string at any position; the runtime scan rejects
exactly the lists the compile-time tuple walk rejects; the three example
duplicate lists are rejected and ["a", "b", "c"] is accepted. -/
theorem c4_duplicate_rejection :
    (∀ name kinds, (∃ msg, errorSetValidate name kinds = .error msg) ↔
        hasDuplicates kinds = true) ∧
    (∀ kinds : List String, hasDuplicates kinds = true ↔ ¬ kinds.Nodup) ∧
    (∀ name kinds msg, errorSetValidate name kinds = .error msg →
        ∃ k, k ∈ kinds ∧ msg = dupMsg k name) ∧
    errorSetValidate "S1" ["a", "b", "a"] = .error (dupMsg "a" "S1") ∧
    errorSetValidate "S2" ["x", "x"] = .error (dupMsg "x" "S2") ∧
    errorSetValidate "S3" ["a", "b", "c", "b"] = .error (dupMsg "b" "S3") ∧
    errorSetValidate "S4" ["a", "b", "c"] = .ok () := by
  refine ⟨?_, hasDuplicates_iff_not_nodup, ?_, rfl, rfl, rfl, rfl⟩
  · intro name kinds
    rw [hasDuplicates_iff_not_nodup]
    unfold errorSetValidate
    cases h : findDuplicate [] kinds with
    | none =>
        have hnd := ((findDuplicate_eq_none_iff kinds []).mp h).1
        simp [hnd]
    | some k =>
        have hne : ¬ (findDuplicate [] kinds = none) := by simp [h]
        rw [findDuplicate_eq_none_iff] at hne
        simp only [not_and] at hne
        constructor
        · intro _
          intro hnd
          exact hne hnd (by simp)
        · intro _
          exact ⟨dupMsg k name, rfl⟩
  · intro name kinds msg hmsg
    unfold errorSetValidate at hmsg
    cases h : findDuplicate [] kinds with
    | none => rw [h] at hmsg; cases hmsg
    | some k =>
        rw [h] at hmsg
        cases hmsg
        exact ⟨k, findDuplicate_some_mem kinds [] k h, rfl⟩

/-- Witness for C4: the list ["x", "x"] is rejected, and the rejection
message for ["a", "b", "a"] cites a duplicate from the list. -/
theorem c4_witness :
    (∃ msg, errorSetValidate "SW" ["x", "x"] = .error msg) ∧
    (∃ k, k ∈ (["a", "b", "a"] : List String) ∧
      dupMsg "a" "S1" = dupMsg k "S1") :=
  ⟨(c4_duplicate_rejection.1 "SW" ["x", "x"]).mpr (by decide),
   c4_duplicate_rejection.2.2.1 "S1" ["a", "b", "a"] (dupMsg "a" "S1")
     c4_duplicate_rejection.2.2.2.1⟩

end Errorset

namespace Errorset

/-- C5: recover returns a guard-rejected value unchanged; on a matching
error it returns the result of the handler keyed by the value's exact kind
when present, else the result of the catch-all keyed by the underscore
string when present, and with neither it fails fatally with the message
naming the unmatched kind. -/
theorem c5_recover_dispatch {R : Type} (value : JsVal) (kinds : List String)
    (handlers : String → Option (JsVal → R)) :
    (setGuard kinds value = false →
        recover value kinds handlers = .ok (.inl value)) ∧
    (∀ brand k m d c t s, value = .errObj brand k m d c t s →
        setGuard kinds value = true →
        ((∀ h, handlers k = some h →
            recover value kinds handlers = .ok (.inr (h value))) ∧
         (handlers k = none → ∀ h, handlers "_" = some h →
            recover value kinds handlers = .ok (.inr (h value))) ∧
         (handlers k = none → handlers "_" = none →
            recover value kinds handlers = .error (noHandlerMsg k)))) := by
  constructor
  · intro hg
    cases value with
    | errObj brand k m d c t s =>
        simp only [recover, hg, Bool.false_eq_true, if_false]
    | undef => rfl
    | nullv => rfl
    | boolv b => rfl
    | numv n => rfl
    | strv s => rfl
    | plainObj o => rfl
    | funv => rfl
    | callableErr k m =>
        simp only [recover, hg, Bool.false_eq_true, if_false]
  · intro brand k m d c t s hval hg
    subst hval
    refine ⟨?_, ?_, ?_⟩
    · intro h hh
      simp only [recover, hg, if_true, hh]
    · intro hn h hh
      simp only [recover, hg, if_true, hn, hh]
    · intro hn hc
      simp only [recover, hg, if_true, hn, hc]

/-- Witness for C5: a matched specific handler, a pass-through success
value, a catch-all fallback, and the fatal no-handler case, all at concrete
inputs. -/
theorem c5_witness :
    recover (.errObj true "not_found" "m" [] none none none) ["not_found"]
      (fun k => if k = "not_found" then some (fun _ => (1 : Nat)) else none) =
      .ok (.inr 1) ∧
    recover (.strv "ok") ["not_found"]
      (fun k => if k = "not_found" then some (fun _ => (1 : Nat)) else none) =
      .ok (.inl (.strv "ok")) ∧
    recover (.errObj true "suspended" "m" [] none none none) ["suspended"]
      (fun k => if k = "_" then some (fun _ => (2 : Nat)) else none) =
      .ok (.inr 2) ∧
    recover (.errObj true "suspended" "m" [] none none none) ["suspended"]
      (fun _ => (none : Option (JsVal → Nat))) =
      .error (noHandlerMsg "suspended") := by
  refine ⟨?_, ?_, ?_, ?_⟩
  · exact ((c5_recover_dispatch (.errObj true "not_found" "m" [] none none none)
      ["not_found"]
      (fun k => if k = "not_found" then some (fun _ => (1 : Nat)) else none)).2
      true "not_found" "m" [] none none none rfl (by decide)).1 _ rfl
  · exact (c5_recover_dispatch (.strv "ok") ["not_found"]
      (fun k => if k = "not_found" then some (fun _ => (1 : Nat)) else none)).1
      (by decide)
  · exact ((c5_recover_dispatch (.errObj true "suspended" "m" [] none none none)
      ["suspended"]
      (fun k => if k = "_" then some (fun _ => (2 : Nat)) else none)).2
      true "suspended" "m" [] none none none rfl (by decide)).2.1 rfl _ rfl
  · exact ((c5_recover_dispatch (.errObj true "suspended" "m" [] none none none)
      ["suspended"] (fun _ => (none : Option (JsVal → Nat)))).2
      true "suspended" "m" [] none none none rfl (by decide)).2.2 rfl rfl

/-- C6: the kind list of merge(A, B) is A's kind list concatenated with B's,
preserving duplicates verbatim (multiplicities add); and the merged guard
accepts every value accepted by either input guard.  The embedding is pure
and `merge` builds a fresh guard from the two spreads, mirroring that the
source call modifies neither input. -/
theorem c6_merge_union (g1 g2 : SetGuardWithKinds) :
    (merge g1 g2).kinds = g1.kinds ++ g2.kinds ∧
    (∀ k, (merge g1 g2).kinds.count k =
        g1.kinds.count k + g2.kinds.count k) ∧
    (∀ v, sgTest g1 v = true → sgTest (merge g1 g2) v = true) ∧
    (∀ v, sgTest g2 v = true → sgTest (merge g1 g2) v = true) := by
  refine ⟨rfl, ?_, ?_, ?_⟩
  · intro k
    simp [merge, List.count_append]
  · intro v hv
    cases v with
    | errObj brand k m d c t s =>
        simp only [sgTest, setGuard, merge, Bool.and_eq_true] at hv ⊢
        refine ⟨hv.1, ?_⟩
        have : k ∈ g1.kinds := by simpa using hv.2
        simp [List.mem_append, this]
    | callableErr k m =>
        simp only [sgTest, setGuard, merge] at hv ⊢
        have : k ∈ g1.kinds := by simpa using hv
        simp [List.mem_append, this]
    | undef => cases hv
    | nullv => cases hv
    | boolv b => cases hv
    | numv n => cases hv
    | strv s => cases hv
    | plainObj o => cases hv
    | funv => cases hv
  · intro v hv
    cases v with
    | errObj brand k m d c t s =>
        simp only [sgTest, setGuard, merge, Bool.and_eq_true] at hv ⊢
        refine ⟨hv.1, ?_⟩
        have : k ∈ g2.kinds := by simpa using hv.2
        simp [List.mem_append, this]
    | callableErr k m =>
        simp only [sgTest, setGuard, merge] at hv ⊢
        have : k ∈ g2.kinds := by simpa using hv
        simp [List.mem_append, this]
    | undef => cases hv
    | nullv => cases hv
    | boolv b => cases hv
    | numv n => cases hv
    | strv s => cases hv
    | plainObj o => cases hv
    | funv => cases hv

/-- Witness for C6: two sets both declaring "not_found" merge to a list in
which it appears twice, and the merged guard accepts a value from the
second set. -/
theorem c6_witness :
    (merge ⟨["not_found"]⟩ ⟨["not_found", "expired"]⟩).kinds =
      ["not_found", "not_found", "expired"] ∧
    (merge ⟨["not_found"]⟩ ⟨["not_found", "expired"]⟩).kinds.count
      "not_found" = 2 ∧
    sgTest (merge ⟨["not_found"]⟩ ⟨["not_found", "expired"]⟩)
      (.errObj true "expired" "m" [] none none none) = true := by
  refine ⟨?_, ?_, ?_⟩
  · exact (c6_merge_union ⟨["not_found"]⟩ ⟨["not_found", "expired"]⟩).1
  · rw [(c6_merge_union ⟨["not_found"]⟩ ⟨["not_found", "expired"]⟩).2.1
      "not_found"]
    decide
  · exact (c6_merge_union ⟨["not_found"]⟩ ⟨["not_found", "expired"]⟩).2.2.2
      (.errObj true "expired" "m" [] none none none) (by decide)

/-- C7: capture returns the wrapped function's result unchanged on a normal
return; on a thrown value it returns the mapper's result, where the mapper
receives a normalized failure whose message, for a thrown non-exception
value such as a plain string, is the stringified form of that value; and
captureAsync applies the identical normalization to the awaited outcome. -/
theorem c7_capture_normalization (A : Type) (fn : Except Thrown A)
    (mapper : JsError → JsVal) :
    (∀ a, fn = .ok a → captureSync fn mapper = .inl a) ∧
    (∀ t, fn = .error t →
        captureSync fn mapper = .inr (mapper (normalizeThrown t))) ∧
    (∀ s, normalizeThrown (.raw (.strv s)) = ⟨s⟩) ∧
    captureAsync fn mapper = captureSync fn mapper := by
  refine ⟨?_, ?_, fun s => rfl, ?_⟩
  · intro a ha; subst ha; rfl
  · intro t ht; subst ht; rfl
  · cases fn <;> rfl

/-- Witness for C7: a thrown plain string "boom" reaches the mapper as a
failure with message "boom"; a normal return of 42 passes through; and
captureAsync agrees with captureSync on the thrown input. -/
theorem c7_witness :
    captureSync (.error (.raw (.strv "boom")) : Except Thrown Nat)
      (fun e => .errObj true "wrapped" e.message [] none none none) =
      .inr (.errObj true "wrapped" "boom" [] none none none) ∧
    captureSync (.ok 42 : Except Thrown Nat)
      (fun e => .errObj true "wrapped" e.message [] none none none) =
      .inl 42 ∧
    captureAsync (.error (.raw (.strv "boom")) : Except Thrown Nat)
      (fun e => .errObj true "wrapped" e.message [] none none none) =
      captureSync (.error (.raw (.strv "boom")) : Except Thrown Nat)
        (fun e => .errObj true "wrapped" e.message [] none none none) := by
  refine ⟨?_, ?_, ?_⟩
  · exact (c7_capture_normalization Nat (.error (.raw (.strv "boom")))
      (fun e => .errObj true "wrapped" e.message [] none none none)).2.1
      (.raw (.strv "boom")) rfl
  · exact (c7_capture_normalization Nat (.ok 42)
      (fun e => .errObj true "wrapped" e.message [] none none none)).1 42 rfl
  · exact (c7_capture_normalization Nat (.error (.raw (.strv "boom")))
      (fun e => .errObj true "wrapped" e.message [] none none none)).2.2.2

end Errorset

namespace Errorset

/-- C8: inspect invokes at most one handler per call; every invoked handler
is the one keyed by the error's exact kind and was actually supplied; it
does nothing when the set guard rejects the value; its body contains no
throw, so the unmatched-kind path also returns normally; and it always
returns nothing (the trace is the only observable, the value itself is
untouched — the embedding is pure, mirroring that the source reads but
never writes the passed value). -/
theorem c8_inspect_observation (value : JsVal) (kinds : List String)
    (handlers : String → Option (JsVal → Unit)) :
    (∃ tr, inspectRun value kinds handlers = .ok tr ∧ tr.length ≤ 1) ∧
    (setGuard kinds value = false →
        inspectRun value kinds handlers = .ok []) ∧
    (∀ tr k, inspectRun value kinds handlers = .ok tr → k ∈ tr →
        kindGuard k value = true ∧ handlers k ≠ none) := by
  refine ⟨?_, ?_, ?_⟩
  · cases value with
    | errObj brand k m d c t s =>
        by_cases hg : setGuard kinds (.errObj brand k m d c t s) = true
        · cases hh : handlers k with
          | some h => exact ⟨[k], by simp [inspectRun, hg, hh], by simp⟩
          | none => exact ⟨[], by simp [inspectRun, hg, hh], by simp⟩
        · exact ⟨[], by simp [inspectRun, hg], by simp⟩
    | callableErr k m =>
        by_cases hg : setGuard kinds (.callableErr k m) = true
        · cases hh : handlers k with
          | some h => exact ⟨[k], by simp [inspectRun, hg, hh], by simp⟩
          | none => exact ⟨[], by simp [inspectRun, hg, hh], by simp⟩
        · exact ⟨[], by simp [inspectRun, hg], by simp⟩
    | undef => exact ⟨[], rfl, by simp⟩
    | nullv => exact ⟨[], rfl, by simp⟩
    | boolv b => exact ⟨[], rfl, by simp⟩
    | numv n => exact ⟨[], rfl, by simp⟩
    | strv s => exact ⟨[], rfl, by simp⟩
    | plainObj o => exact ⟨[], rfl, by simp⟩
    | funv => exact ⟨[], rfl, by simp⟩
  · intro hg
    cases value with
    | errObj brand k m d c t s => simp [inspectRun, hg]
    | callableErr k m => simp [inspectRun, hg]
    | undef => rfl
    | nullv => rfl
    | boolv b => rfl
    | numv n => rfl
    | strv s => rfl
    | plainObj o => rfl
    | funv => rfl
  · intro tr k htr hk
    cases value with
    | errObj brand k0 m d c t s =>
        by_cases hg : setGuard kinds (.errObj brand k0 m d c t s) = true
        · cases hh : handlers k0 with
          | some h =>
              simp only [inspectRun, hg, if_true, hh] at htr
              cases htr
              have hk0 : k = k0 := by simpa using hk
              subst hk0
              constructor
              · have hb : brand = true := by
                  simp only [setGuard, Bool.and_eq_true] at hg
                  exact hg.1
                simp [kindGuard, hb]
              · simp [hh]
          | none =>
              simp only [inspectRun, hg, if_true, hh] at htr
              cases htr
              simp at hk
        · simp only [inspectRun] at htr
          rw [if_neg hg] at htr
          cases htr
          simp at hk
    | callableErr k0 m =>
        by_cases hg : setGuard kinds (.callableErr k0 m) = true
        · cases hh : handlers k0 with
          | some h =>
              simp only [inspectRun, hg, if_true, hh] at htr
              cases htr
              have hk0 : k = k0 := by simpa using hk
              subst hk0
              exact ⟨by simp [kindGuard], by simp [hh]⟩
          | none =>
              simp only [inspectRun, hg, if_true, hh] at htr
              cases htr
              simp at hk
        · simp only [inspectRun] at htr
          rw [if_neg hg] at htr
          cases htr
          simp at hk
    | undef => cases htr; simp at hk
    | nullv => cases htr; simp at hk
    | boolv b => cases htr; simp at hk
    | numv n => cases htr; simp at hk
    | strv s => cases htr; simp at hk
    | plainObj o => cases htr; simp at hk
    | funv => cases htr; simp at hk

/-- Witness for C8: a matching error invokes exactly the handler of its
kind, which is the error's exact kind; a non-error value invokes nothing. -/
theorem c8_witness :
    inspectRun (.errObj true "not_found" "m" [] none none none) ["not_found"]
      (fun k => if k = "not_found" then some (fun _ => ()) else none) =
      .ok ["not_found"] ∧
    kindGuard "not_found" (.errObj true "not_found" "m" [] none none none) =
      true ∧
    inspectRun (.strv "ok") ["not_found"]
      (fun k => if k = "not_found" then some (fun _ => ()) else none) =
      .ok [] := by
  refine ⟨rfl, ?_, ?_⟩
  · exact ((c8_inspect_observation
      (.errObj true "not_found" "m" [] none none none) ["not_found"]
      (fun k => if k = "not_found" then some (fun _ => ()) else none)).2.2
      ["not_found"] "not_found" rfl (by simp)).1
  · exact (c8_inspect_observation (.strv "ok") ["not_found"]
      (fun k => if k = "not_found" then some (fun _ => ()) else none)).2.1
      (by decide)

/-- C9: for every kind function invoked in constructor mode with a template
containing no placeholder keys, the returned value is itself a complete
Error Value — accepted by isErr, with its kind, its message (the sole
segment) and empty data already populated — and is callable with an
optional cause, producing a second Error Value sharing the same kind and
message with the supplied cause attached. -/
theorem c9_zero_placeholder_callable (kind : String) (strings : List String)
    (g : Config) (i : Option PartialConfig) (v8 : Option String) :
    kindFnTemplate kind strings [] g i v8 =
      .callableValue kind (strings.getD 0 "") ∧
    isErr (taggedResultShape (kindFnTemplate kind strings [] g i v8)) =
      true ∧
    errKind (taggedResultShape (kindFnTemplate kind strings [] g i v8)) =
      some kind ∧
    errMessage (taggedResultShape (kindFnTemplate kind strings [] g i v8)) =
      some (strings.getD 0 "") ∧
    errData (taggedResultShape (kindFnTemplate kind strings [] g i v8)) =
      some [] ∧
    ∀ cause,
      taggedInvoke (kindFnTemplate kind strings [] g i v8) cause =
        some (callableInvoke kind (strings.getD 0 "") cause) ∧
      isErr (callableInvoke kind (strings.getD 0 "") cause) = true ∧
      errKind (callableInvoke kind (strings.getD 0 "") cause) = some kind ∧
      errMessage (callableInvoke kind (strings.getD 0 "") cause) =
        some (strings.getD 0 "") ∧
      errData (callableInvoke kind (strings.getD 0 "") cause) = some [] ∧
      errCause (callableInvoke kind (strings.getD 0 "") cause) = cause := by
  refine ⟨rfl, rfl, rfl, rfl, rfl, ?_⟩
  intro cause
  exact ⟨rfl, rfl, rfl, rfl, rfl, rfl⟩

/-- C10: the error construction writes no timestamp field at all — the
timestamp component of every constructed value is absent for every
configuration, including configurations with timestamp inclusion enabled,
contradicting the documented behaviour that it is set at construction when
enabled.  (The half of the claim for disabled timestamps holds.) -/
theorem c10_timestamp_never_set (kind : String) (strings keys : List String)
    (entity : List (String × JsVal)) (cause : Option JsVal)
    (g : Config) (i : Option PartialConfig) (v8 : Option String) :
    errTimestamp (createError kind strings keys entity cause g i v8) =
      none := rfl

end Errorset
